import Mathlib

/-!
Shallow embedding of the recognition-to-attendance core of the
`attendancedetection` repository.

Sources embedded here:
* `constants.ts` — the numeric configuration values.
* `App.tsx` — client state (`attendanceLog`, `lastLoggedTimestamps`),
  `handleFaceRecognized`, `saveAttendanceRecord`, `fetchAttendanceRecords`.
* `components/WebcamDisplay.tsx` — the `faceMatcher` effect, the
  per-detection branch of `detectFaces`, and the `setInterval` detection loop.
* the file-backed Express server (`readRecords`/`writeRecords`,
  `GET /api/attendance`, `POST /api/attendance`) and the Mongo-backed
  variant of the same routes.

Timestamps are modelled as integers (milliseconds, as produced by
`Date.now()`); JavaScript numbers are signed, so `ℤ` is used.  Embedding
vectors are modelled as lists of rationals; Euclidean distances are
compared through their squares, which preserves both the order and the
strict threshold comparison because `Real.sqrt` is strictly monotone on
nonnegative arguments.
-/

namespace Attendance

/-! ### constants.ts -/

/-- Constant `MIN_CONFIDENCE = 0.6` (constants.ts). -/
def MIN_CONFIDENCE : ℚ := 3 / 5

/-- Constant `FACE_MATCH_THRESHOLD = 0.5` (constants.ts). -/
def FACE_MATCH_THRESHOLD : ℚ := 1 / 2

/-- Constant `ATTENDANCE_COOLDOWN_MS = 5 * 60 * 1000` (constants.ts). -/
def ATTENDANCE_COOLDOWN_MS : ℤ := 5 * 60 * 1000

/-! ### Decimal rendering of numbers, for the template literals
`` `${name}-${now}` `` used for record ids.  JavaScript renders a
nonnegative integer as its decimal digits and a negative one as `-`
followed by the digits of its absolute value. -/

/-- The character for a single decimal digit (`0 ≤ d ≤ 9`). -/
def digitChar (d : ℕ) : Char := Char.ofNat (48 + d)

/-- Decimal digit string of a natural number, most significant first,
with explicit fuel so that it is structurally recursive (any
`fuel > n` suffices). -/
def natDigitsAux : ℕ → ℕ → List Char
  | 0, _ => []
  | fuel + 1, n =>
      if n < 10 then [digitChar n]
      else natDigitsAux fuel (n / 10) ++ [digitChar (n % 10)]

/-- Decimal digit string of a natural number, most significant first. -/
def natDigits (n : ℕ) : List Char := natDigitsAux (n + 1) n

/-- Decimal rendering of a natural number. -/
def natToStr (n : ℕ) : String := ⟨natDigits n⟩

/-- Decimal rendering of an integer, as JavaScript string conversion does. -/
def intToStr (i : ℤ) : String :=
  if i < 0 then "-" ++ natToStr (-i).toNat else natToStr i.toNat

/-- Record-id generation: the template literal `` `${name}-${now}` ``
used both by `handleFaceRecognized` (App.tsx) and the file-backed POST
handler. -/
def mkRecordId (name : String) (now : ℤ) : String :=
  name ++ "-" ++ intToStr now

/-! ### App.tsx client state and the cooldown gate -/

/-- Structure `AttendanceRecord` (types.ts): `id`, `name`, `timestamp`. -/
structure AttendanceRecord where
  id : String
  name : String
  timestamp : ℤ
deriving DecidableEq, Repr

/-- The two pieces of App.tsx state the recognition path touches:
`attendanceLog` and `lastLoggedTimestamps` (a JS object keyed by name,
modelled as an association list; later bindings shadow earlier ones). -/
structure AppState where
  attendanceLog : List AttendanceRecord
  lastLoggedTimestamps : List (String × ℤ)
deriving DecidableEq, Repr

/-- The empty initial App.tsx state (`useState([])`, `useState(\x7b\x7d)`). -/
def initialAppState : AppState := ⟨[], []⟩

/-- Reading `lastLoggedTimestamps[name]` from the JS object: the binding
for `name` if present. -/
def lookupTs (m : List (String × ℤ)) (name : String) : Option ℤ :=
  (m.find? fun p => p.1 == name).map Prod.snd

/-- The read `lastLoggedTimestamps[name] || 0` (App.tsx line 158): an absent entry
is read as `0`. -/
def lookupLogged (m : List (String × ℤ)) (name : String) : ℤ :=
  (lookupTs m name).getD 0

/-- The JS spread update `{...prevTimestamps, [name]: now}`
(App.tsx line 164): the binding for `name` becomes `now`, all other
bindings are unchanged. -/
def setLogged (m : List (String × ℤ)) (name : String) (now : ℤ) :
    List (String × ℤ) :=
  (name, now) :: m.filter fun p => p.1 ≠ name

/-- Function `saveAttendanceRecord` (App.tsx lines 138–153): one `fetch` POST
attempt whose failure is caught (`catch` + `console.error`), so the call
completes normally whether or not the request succeeds and is never
retried.  Returns the number of POST attempts made. -/
def saveAttempts (saveOk : Bool) : ℕ := 1

/-- Function `handleFaceRecognized` (App.tsx lines 155–182).  Reads
`lastLoggedTimestamps[name] || 0`; if `now - last < ATTENDANCE_COOLDOWN_MS`
it returns the previous log unchanged (and performs no other effect);
otherwise it sets `lastLoggedTimestamps[name] = now`, prepends the new
record `{id: `name-now`, name, timestamp}` to the log, and calls
`saveAttendanceRecord` once (fire-and-forget; `saveOk` is the outcome of
that request, which the code never consults).  The second component is
the number of save attempts made. -/
def handleFaceRecognized (s : AppState) (name : String) (now : ℤ)
    (saveOk : Bool) : AppState × ℕ :=
  let lastLoggedTime := lookupLogged s.lastLoggedTimestamps name
  if now - lastLoggedTime < ATTENDANCE_COOLDOWN_MS then
    (s, 0)
  else
    let newRecord : AttendanceRecord := ⟨mkRecordId name now, name, now⟩
    ({ attendanceLog := newRecord :: s.attendanceLog,
       lastLoggedTimestamps := setLogged s.lastLoggedTimestamps name now },
     saveAttempts saveOk)

/-! ### Matcher (components/WebcamDisplay.tsx) -/

/-- Squared Euclidean distance between two equal-length embedding
vectors (`faceapi.euclideanDistance` squared). -/
def sqDist (a b : List ℚ) : ℚ :=
  (List.zipWith (fun x y => (x - y) ^ 2) a b).sum

/-- Modelled from the spec: the nearest-neighbour scan inside
`faceapi.FaceMatcher.findBestMatch` is external face-api.js library code,
not part of this repository's sources.  Per the spec (§4.2) it computes
the distance from the query to every registered embedding and takes the
minimum, with a stable argmin: on an exact tie the entry encountered
first in registration order wins.  Returns the winning name together
with its squared distance, or `none` for an empty registry. -/
def bestEntry : List (String × List ℚ) → List ℚ → Option (String × ℚ)
  | [], _ => none
  | (n, e) :: rest, q =>
      let d := sqDist e q
      match bestEntry rest q with
      | none => some (n, d)
      | some (m, d2) => if d2 < d then some (m, d2) else some (n, d)

/-- Modelled from the spec: `faceapi.FaceMatcher.findBestMatch`, built
with `FACE_MATCH_THRESHOLD` (WebcamDisplay.tsx line 145).  Per the spec
(§4.2), if the minimal distance is strictly below the threshold the
result label is the matched identity's name, otherwise the sentinel
label `"unknown"` with the true minimal distance.  Distances are squared
throughout, so the threshold is compared squared as well.  The empty
case is unreachable in the pipeline (the matcher is only built from a
nonempty registry) and returns the sentinel. -/
def findBestMatch (reg : List (String × List ℚ)) (q : List ℚ) :
    String × ℚ :=
  match bestEntry reg q with
  | none => ("unknown", 0)
  | some (n, d) =>
      if d < FACE_MATCH_THRESHOLD ^ 2 then (n, d) else ("unknown", d)

/-- The recognition decision of `detectFaces`
(WebcamDisplay.tsx lines 182–194) combined with the `faceMatcher` effect
(lines 139–153): when `registeredUsers` is empty the matcher is `null`
and no match is attempted; otherwise `onFaceRecognized(bestMatch.label)`
is called exactly when `bestMatch.label !== 'unknown' &&
bestMatch.distance < FACE_MATCH_THRESHOLD`.  Returns the name passed to
`onFaceRecognized`, or `none` when no recognition happens. -/
def recognizedName (reg : List (String × List ℚ)) (q : List ℚ) :
    Option String :=
  match reg with
  | [] => none
  | _ :: _ =>
      let bm := findBestMatch reg q
      if bm.1 ≠ "unknown" ∧ bm.2 < FACE_MATCH_THRESHOLD ^ 2 then some bm.1
      else none

/-- The label `detectFaces` ends up with for a detection: the recognized
name, or the fallback `let label = 'Unknown'`
(WebcamDisplay.tsx line 184). -/
def classifyLabel (reg : List (String × List ℚ)) (q : List ℚ) : String :=
  (recognizedName reg q).getD "Unknown"

/-- One detection flowing through `detectFaces` into App.tsx: if the
face is recognized, `onFaceRecognized` = `handleFaceRecognized` runs on
the recognized name; otherwise the App.tsx state is untouched and no
save is attempted. -/
def processDetection (reg : List (String × List ℚ)) (s : AppState)
    (q : List ℚ) (now : ℤ) (saveOk : Bool) : AppState × ℕ :=
  match recognizedName reg q with
  | some n => handleFaceRecognized s n now saveOk
  | none => (s, 0)

/-! ### The periodic detection loop (WebcamDisplay.tsx lines 155–170 and
212–221).

`handlePlay` installs `window.setInterval(detectFaces, 300)`: the
interval callback is `detectFaces` itself, with no wrapper.  `detectFaces`
is `async`; its early returns (lines 156–170) test only the video, canvas
and model state — nothing in it consults whether a previous invocation is
still awaiting `faceapi.detectAllFaces`.  Under JavaScript timer
semantics each interval tick therefore invokes `detectFaces` again even
while a previous invocation's awaited detection work is still pending,
so detection runs started on different ticks can be in flight at the
same time. -/

/-- The video/canvas/model condition of the early returns of
`detectFaces` (lines 156–170): refs non-null, the SSD model loaded, the
video not paused/ended with `readyState ≥ 3`, and nonzero dimensions. -/
structure VideoState where
  videoRefSet : Bool
  canvasRefSet : Bool
  ssdLoaded : Bool
  paused : Bool
  ended : Bool
  readyState : ℕ
  videoWidth : ℕ
  videoHeight : ℕ
deriving DecidableEq, Repr

/-- Condition under which `detectFaces` proceeds past its early returns exactly when this
holds.  Note the guard reads no in-flight information. -/
def detectFacesGuard (v : VideoState) : Bool :=
  v.videoRefSet && v.canvasRefSet && v.ssdLoaded &&
    !v.paused && !v.ended && decide (3 ≤ v.readyState) &&
    decide (0 < v.videoWidth) && decide (0 < v.videoHeight)

/-- Loop state: the number of detection runs started but not yet
finished, together with the current video state. -/
structure LoopState where
  inFlight : ℕ
  video : VideoState
deriving DecidableEq, Repr

/-- Events of the detection loop: an interval tick (every 300 ms), or
the completion of one previously started detection run. -/
inductive LoopEvent where
  | tick
  | finish
deriving DecidableEq, Repr

/-- One step of the loop.  On `tick` the interval fires and invokes
`detectFaces`: if the guard fails the invocation returns early and no
run starts; otherwise a new detection run starts — unconditionally on
`inFlight`, because the code has no overlap check.  On `finish` one
pending run completes. -/
def loopStep (s : LoopState) (e : LoopEvent) : LoopState :=
  match e with
  | LoopEvent.tick =>
      if detectFacesGuard s.video then { s with inFlight := s.inFlight + 1 }
      else s
  | LoopEvent.finish => { s with inFlight := s.inFlight - 1 }

/-- Run the loop over a sequence of events. -/
def runLoop (s : LoopState) (es : List LoopEvent) : LoopState :=
  es.foldl loopStep s

/-- A video state passing every early-return test. -/
def readyVideo : VideoState :=
  { videoRefSet := true, canvasRefSet := true, ssdLoaded := true,
    paused := false, ended := false, readyState := 4,
    videoWidth := 1280, videoHeight := 720 }

/-! ### The file-backed Express server (`server.js` section of types.ts
concatenation): `readRecords` parses `attendance.json`, `writeRecords`
rewrites the whole file, `POST /api/attendance` builds
`{id: `${name}-${Date.now()}`, name, timestamp, date, time}`, `unshift`s
it onto the parsed array and writes the array back, and
`GET /api/attendance` returns the parsed array as stored. -/

/-- A record as stored by the file-backed server.  The locale display
strings `date`/`time` are derived from `timestamp` at write time; their
exact locale rendering is irrelevant to every claim, so they are kept as
the underlying millisecond value they were derived from. -/
structure ServerRecord where
  id : String
  name : String
  timestamp : ℤ
deriving DecidableEq, Repr

/-- The record the file-backed POST handler constructs from the request
body (`name`, `timestamp`) at server time `now = Date.now()`. -/
def mkServerRecord (name : String) (ts : ℤ) (now : ℤ) : ServerRecord :=
  ⟨mkRecordId name now, name, ts⟩

/-- One complete, uninterleaved run of the file-backed POST handler:
read the whole file, `unshift` the new record, write the whole file
back.  Returns the new file contents and the created record (sent back
with status 201). -/
def filePost (file : List ServerRecord) (name : String) (ts now : ℤ) :
    List ServerRecord × ServerRecord :=
  let r := mkServerRecord name ts now
  (r :: file, r)

/-- Route `GET /api/attendance` on the file-backed server: the stored array,
returned exactly as read (no sorting). -/
def fileGet (file : List ServerRecord) : List ServerRecord := file

/-- A whole sequence of sequential POSTs `(name, ts, now)` applied in
arrival order to an initially empty store. -/
def appendAll (reqs : List (String × ℤ × ℤ)) : List ServerRecord :=
  reqs.foldl (fun file r => (filePost file r.1 r.2.1 r.2.2).1) []

/-- The list is sorted by timestamp descending (most recent first). -/
def sortedByTsDesc (l : List ServerRecord) : Prop :=
  l.Pairwise fun a b => b.timestamp ≤ a.timestamp

instance (l : List ServerRecord) : Decidable (sortedByTsDesc l) :=
  inferInstanceAs (Decidable (l.Pairwise _))

/-! ### Interleaving model of two concurrent file-backed POST handlers.

The handler body is `const records = await readRecords(); ...
records.unshift(newRecord); await writeRecords(records)`: an `await`
separates the read of the whole file from the write of the whole file,
so two in-flight requests can interleave at that point.  Each handler is
modelled as a two-step program over the shared file. -/

/-- Progress of one in-flight POST handler: before its `readRecords`,
between read and `writeRecords` (holding its private `records` array),
or finished. -/
inductive HandlerPC where
  | toRead
  | toWrite (localRecords : List ServerRecord)
  | done (result : ServerRecord)
deriving DecidableEq, Repr

/-- Shared state of the file plus two in-flight POST handlers. -/
structure ConcState where
  file : List ServerRecord
  h1 : HandlerPC
  h2 : HandlerPC
deriving DecidableEq, Repr

/-- One atomic step of a single handler that is posting record `r`:
`readRecords` copies the current file into the handler's local array;
`writeRecords` replaces the file with the handler's `unshift`ed local
array and completes with status 201 carrying `r`. -/
def handlerStep (file : List ServerRecord) (pc : HandlerPC)
    (r : ServerRecord) : List ServerRecord × HandlerPC :=
  match pc with
  | HandlerPC.toRead => (file, HandlerPC.toWrite file)
  | HandlerPC.toWrite localRecords =>
      (r :: localRecords, HandlerPC.done r)
  | HandlerPC.done res => (file, HandlerPC.done res)

/-- Run a schedule (list of thread choices, `false` = handler 1,
`true` = handler 2) of the two concurrent POSTs of records `r1`, `r2`. -/
def runSched (r1 r2 : ServerRecord) (sched : List Bool)
    (s : ConcState) : ConcState :=
  sched.foldl
    (fun st t =>
      if t then
        let p := handlerStep st.file st.h2 r2
        { st with file := p.1, h2 := p.2 }
      else
        let p := handlerStep st.file st.h1 r1
        { st with file := p.1, h1 := p.2 })
    s

/-- Both handlers still to run against an initially empty store. -/
def concStart : ConcState := ⟨[], HandlerPC.toRead, HandlerPC.toRead⟩

/-- Whether a handler has completed (returned 201). -/
def HandlerPC.finished : HandlerPC → Bool
  | HandlerPC.done _ => true
  | _ => false

/-! ### Status codes of the POST handlers.

File-backed handler (types.ts concatenation, lines 69–91): the whole body
is one `try`; destructuring a missing field yields `undefined` without
throwing, and `new Date(undefined).toLocaleDateString()` yields
`"Invalid Date"` without throwing, so the body never causes a throw
inside the handler.  The only throwing steps are `readRecords` and
`writeRecords`; any throw lands in the single `catch`, which responds
**400**.  On success it responds 201 with the created record.  (A
syntactically invalid JSON body is rejected by the `express.json()`
middleware before this handler runs, outside these sources.) -/

/-- A request body: each field present or missing. -/
structure PostBody where
  name : Option String
  timestamp : Option ℤ
deriving DecidableEq, Repr

/-- Result of the file-backed POST handler: HTTP status, the stored file
afterwards, and the created record if any. -/
structure PostOutcome where
  status : ℕ
  file : List ServerRecord
  created : Option ServerRecord
deriving DecidableEq, Repr

/-- The file-backed `POST /api/attendance` handler with explicit
outcomes for the two fallible storage steps.  A missing `name` is stored
as the string JavaScript interpolates for `undefined`, and a missing
`timestamp` becomes an invalid date; neither throws. -/
def filePostHandler (file : List ServerRecord) (body : PostBody)
    (readOk writeOk : Bool) (now : ℤ) : PostOutcome :=
  if !readOk then ⟨400, file, none⟩
  else
    let nm := body.name.getD "undefined"
    let ts := body.timestamp.getD 0
    let r := mkServerRecord nm ts now
    if !writeOk then ⟨400, file, none⟩
    else ⟨201, r :: file, some r⟩

/-- The Mongo-backed `POST /api/attendance` handler (second server
variant): the schema requires `name` and `timestamp`, so `record.save()`
throws a validation error when either is missing, and throws on a
storage failure; every throw lands in the `catch`, which responds
**400**.  On success it responds 201. -/
def mongoPostStatus (body : PostBody) (saveOk : Bool) : ℕ :=
  if body.name.isNone || body.timestamp.isNone then 400
  else if !saveOk then 400
  else 201

/-! ### The client fetch mapping (App.tsx lines 119–135) and the wire
shape of file-backed records. -/

/-- A record as it appears in the JSON the server sends: the Mongo
variant has a `_id` member, the file-backed variant has an `id` member;
absent members read as `undefined` (`none`). -/
structure WireRecord where
  mongoId : Option String
  id : Option String
  name : String
  timestamp : ℤ
deriving DecidableEq, Repr

/-- The JSON the file-backed server sends for a stored record: it has
the `id` field set by the POST handler and no `_id` member at all. -/
def fileWire (r : ServerRecord) : WireRecord :=
  ⟨none, some r.id, r.name, r.timestamp⟩

/-- The client's in-memory record: `id` is whatever
`record._id` evaluated to (possibly `undefined`). -/
structure ClientRecord where
  id : Option String
  name : String
  timestamp : ℤ
deriving DecidableEq, Repr

/-- Mapping applied by `fetchAttendanceRecords` (App.tsx lines 124–128):
`{ id: record._id, name: record.name, timestamp: new Date(record.timestamp) }`. -/
def clientOfWire (w : WireRecord) : ClientRecord :=
  ⟨w.mongoId, w.name, w.timestamp⟩

/-! ### Helper lemmas: decimal rendering is injective -/

/-- Value of a digit string, most significant first. -/
def digitVal (l : List Char) : ℕ :=
  l.foldl (fun a c => 10 * a + (c.toNat - 48)) 0

lemma digitVal_append_single (l : List Char) (c : Char) :
    digitVal (l ++ [c]) = 10 * digitVal l + (c.toNat - 48) := by
  simp [digitVal, List.foldl_append]

lemma digitChar_toNat {d : ℕ} (h : d < 10) : (digitChar d).toNat = 48 + d := by
  interval_cases d <;> rfl

lemma digitVal_natDigitsAux : ∀ fuel n, n < fuel →
    digitVal (natDigitsAux fuel n) = n := by
  intro fuel
  induction fuel with
  | zero => omega
  | succ f ih =>
      intro n hn
      by_cases h : n < 10
      · simp [natDigitsAux, h, digitVal, digitChar_toNat h]
      · have hdiv : n / 10 < f := by
          have h1 : n / 10 < n := Nat.div_lt_self (by omega) (by omega)
          omega
        have hmod : n % 10 < 10 := Nat.mod_lt _ (by omega)
        simp only [natDigitsAux, if_neg h, digitVal_append_single, ih _ hdiv,
          digitChar_toNat hmod]
        omega

lemma digitVal_natDigits (n : ℕ) : digitVal (natDigits n) = n :=
  digitVal_natDigitsAux (n + 1) n (Nat.lt_succ_self n)

lemma natDigits_injective : Function.Injective natDigits := by
  intro a b h
  have := digitVal_natDigits a
  rw [h, digitVal_natDigits] at this
  omega

lemma natDigitsAux_ne_nil (fuel n : ℕ) : natDigitsAux (fuel + 1) n ≠ [] := by
  by_cases h : n < 10 <;> simp [natDigitsAux, h]

lemma natDigitsAux_digits : ∀ fuel n, ∀ c ∈ natDigitsAux fuel n,
    48 ≤ c.toNat ∧ c.toNat ≤ 57 := by
  intro fuel
  induction fuel with
  | zero => intro n c hc; simp [natDigitsAux] at hc
  | succ f ih =>
      intro n c hc
      by_cases h : n < 10
      · simp [natDigitsAux, h] at hc
        subst hc
        rw [digitChar_toNat h]
        omega
      · simp only [natDigitsAux, if_neg h, List.mem_append,
          List.mem_singleton] at hc
        rcases hc with hc | hc
        · exact ih _ c hc
        · subst hc
          rw [digitChar_toNat (Nat.mod_lt _ (by omega))]
          have := Nat.mod_lt n (y := 10) (by omega)
          omega

lemma natToStr_injective : Function.Injective natToStr := by
  intro a b h
  exact natDigits_injective (congrArg String.data h)

lemma natToStr_data (n : ℕ) : (natToStr n).data = natDigits n := rfl

lemma intToStr_injective : Function.Injective intToStr := by
  intro a b h
  unfold intToStr at h
  by_cases ha : a < 0 <;> by_cases hb : b < 0
  · rw [if_pos ha, if_pos hb] at h
    have hd := congrArg String.data h
    simp only [String.data_append, natToStr_data] at hd
    have : natDigits (-a).toNat = natDigits (-b).toNat :=
      List.append_cancel_left hd
    have := natDigits_injective this
    omega
  · rw [if_pos ha, if_neg hb] at h
    have hd := congrArg String.data h
    simp only [String.data_append, natToStr_data] at hd
    exfalso
    have hb0 : ('-' : Char) ∈ natDigits b.toNat := by
      rw [← hd]; exact List.mem_append_left _ (by simp [String.data])
    exact absurd (natDigitsAux_digits (b.toNat + 1) b.toNat '-' hb0)
      (by decide)
  · rw [if_neg ha, if_pos hb] at h
    have hd := congrArg String.data h
    simp only [String.data_append, natToStr_data] at hd
    exfalso
    have ha0 : ('-' : Char) ∈ natDigits a.toNat := by
      rw [hd]; exact List.mem_append_left _ (by simp [String.data])
    exact absurd (natDigitsAux_digits (a.toNat + 1) a.toNat '-' ha0)
      (by decide)
  · rw [if_neg ha, if_neg hb] at h
    have := natToStr_injective h
    omega

/-- For a fixed name, the generated ids coincide exactly when the
generation timestamps coincide. -/
lemma mkRecordId_eq_iff (name : String) (t1 t2 : ℤ) :
    mkRecordId name t1 = mkRecordId name t2 ↔ t1 = t2 := by
  constructor
  · intro h
    unfold mkRecordId at h
    have hd := congrArg String.data h
    simp only [String.data_append] at hd
    have : (intToStr t1).data = (intToStr t2).data :=
      List.append_cancel_left hd
    exact intToStr_injective (String.ext this)
  · intro h; rw [h]

/-! ### Helper lemmas: the `lastLoggedTimestamps` association list -/

lemma lookupTs_cons (p : String × ℤ) (rest : List (String × ℤ))
    (k : String) :
    lookupTs (p :: rest) k =
      if p.1 == k then some p.2 else lookupTs rest k := by
  cases h : (p.1 == k) <;> simp [lookupTs, List.find?_cons, h]

lemma lookupTs_setLogged_same (m : List (String × ℤ)) (name : String)
    (v : ℤ) : lookupTs (setLogged m name v) name = some v := by
  simp [setLogged, lookupTs_cons]

lemma lookupTs_filter_ne (m : List (String × ℤ)) (name k : String)
    (hk : k ≠ name) :
    lookupTs (m.filter fun p => p.1 ≠ name) k = lookupTs m k := by
  induction m with
  | nil => rfl
  | cons p rest ih =>
      by_cases hp : p.1 = name
      · have hpk : (p.1 == k) = false :=
          beq_eq_false_iff_ne.mpr (by rw [hp]; exact fun hc => hk hc.symm)
        rw [List.filter_cons_of_neg (by simp [hp]), ih, lookupTs_cons, hpk]
        simp
      · rw [List.filter_cons_of_pos (by simp [hp]), lookupTs_cons,
          lookupTs_cons, ih]

lemma lookupTs_setLogged_other (m : List (String × ℤ)) (name k : String)
    (v : ℤ) (hk : k ≠ name) :
    lookupTs (setLogged m name v) k = lookupTs m k := by
  have hnk : ((name, v).1 == k) = false :=
    beq_eq_false_iff_ne.mpr (by exact fun hc => hk hc.symm)
  rw [setLogged, lookupTs_cons, hnk]
  simp only [if_neg Bool.false_ne_true]
  exact lookupTs_filter_ne m name k hk

lemma lookupLogged_setLogged_same (m : List (String × ℤ)) (name : String)
    (v : ℤ) : lookupLogged (setLogged m name v) name = v := by
  simp [lookupLogged, lookupTs_setLogged_same]

lemma lookupLogged_setLogged_other (m : List (String × ℤ)) (name k : String)
    (v : ℤ) (hk : k ≠ name) :
    lookupLogged (setLogged m name v) k = lookupLogged m k := by
  simp [lookupLogged, lookupTs_setLogged_other m name k v hk]

/-! ### Helper lemmas: the nearest-neighbour scan -/

lemma bestEntry_eq_none_iff (reg : List (String × List ℚ)) (q : List ℚ) :
    bestEntry reg q = none ↔ reg = [] := by
  cases reg with
  | nil => simp [bestEntry]
  | cons p rest =>
      simp only [bestEntry]
      cases bestEntry rest q with
      | none => simp
      | some b =>
          rcases b with ⟨m, d2⟩
          by_cases h : d2 < sqDist p.2 q <;> simp [h]

lemma bestEntry_mem (reg : List (String × List ℚ)) (q : List ℚ)
    (n : String) (d : ℚ) (h : bestEntry reg q = some (n, d)) :
    ∃ e, (n, e) ∈ reg ∧ sqDist e q = d := by
  induction reg generalizing n d with
  | nil => simp [bestEntry] at h
  | cons p rest ih =>
      obtain ⟨n0, e0⟩ := p
      rw [bestEntry] at h
      cases hrest : bestEntry rest q with
      | none =>
          rw [hrest] at h
          simp only [Option.some.injEq, Prod.mk.injEq] at h
          exact ⟨e0, by simp [h.1], h.2⟩
      | some b =>
          obtain ⟨m, d2⟩ := b
          rw [hrest] at h
          dsimp only at h
          by_cases hlt : d2 < sqDist e0 q
          · rw [if_pos hlt] at h
            simp only [Option.some.injEq, Prod.mk.injEq] at h
            obtain ⟨e, he, hd⟩ :=
              ih n d (by rw [hrest, h.1, h.2])
            exact ⟨e, List.mem_cons_of_mem _ he, hd⟩
          · rw [if_neg hlt] at h
            simp only [Option.some.injEq, Prod.mk.injEq] at h
            exact ⟨e0, by simp [h.1], h.2⟩

lemma bestEntry_min (reg : List (String × List ℚ)) (q : List ℚ)
    (n : String) (d : ℚ) (h : bestEntry reg q = some (n, d)) :
    ∀ p ∈ reg, d ≤ sqDist p.2 q := by
  induction reg generalizing n d with
  | nil => simp [bestEntry] at h
  | cons p rest ih =>
      obtain ⟨n0, e0⟩ := p
      rw [bestEntry] at h
      intro r hr
      cases hrest : bestEntry rest q with
      | none =>
          rw [hrest] at h
          simp only [Option.some.injEq, Prod.mk.injEq] at h
          have hrest0 : rest = [] := (bestEntry_eq_none_iff rest q).mp hrest
          rcases List.mem_cons.mp hr with hr | hr
          · subst hr; rw [← h.2]
          · rw [hrest0] at hr; simp at hr
      | some b =>
          obtain ⟨m, d2⟩ := b
          rw [hrest] at h
          dsimp only at h
          by_cases hlt : d2 < sqDist e0 q
          · rw [if_pos hlt] at h
            simp only [Option.some.injEq, Prod.mk.injEq] at h
            rcases List.mem_cons.mp hr with hr | hr
            · subst hr; rw [← h.2]; exact le_of_lt hlt
            · exact h.2 ▸ ih m d2 hrest r hr
          · rw [if_neg hlt] at h
            simp only [Option.some.injEq, Prod.mk.injEq] at h
            rcases List.mem_cons.mp hr with hr | hr
            · subst hr; rw [← h.2]
            · calc d ≤ d2 := by rw [← h.2]; exact le_of_not_lt hlt
                _ ≤ sqDist r.2 q := ih m d2 hrest r hr

/-! ### Helper lemmas: order of the file-backed store -/

lemma appendAll_go (reqs : List (String × ℤ × ℤ))
    (file : List ServerRecord) :
    reqs.foldl (fun f r => (filePost f r.1 r.2.1 r.2.2).1) file
      = (reqs.map fun r => mkServerRecord r.1 r.2.1 r.2.2).reverse ++ file := by
  induction reqs generalizing file with
  | nil => simp
  | cons r rest ih =>
      simp only [List.foldl_cons, List.map_cons, List.reverse_cons, ih,
        List.append_assoc, List.singleton_append]
      rfl

lemma appendAll_eq_reverse_map (reqs : List (String × ℤ × ℤ)) :
    appendAll reqs
      = (reqs.map fun r => mkServerRecord r.1 r.2.1 r.2.2).reverse := by
  rw [appendAll, appendAll_go, List.append_nil]

/-! ## The claims -/

/-- Claim C1 (counterexample).  The claim says the gate treats an absent
entry as `lastAccepted = -infinity`, so that for every name with no
prior accepted event any first attempt at any time `now` is accepted —
in particular its scenario starts with an accept at `t = 0`.  In the
code the absent entry reads as `0` (`lastLoggedTimestamps[name] || 0`),
so the very first attempt for "Alice" at `now = 0` computes
`0 - 0 < 300000` and is rejected: no record is appended, no save is
attempted, and the state is unchanged. -/
theorem cooldown_gate_counterexample :
    handleFaceRecognized initialAppState "Alice" 0 true
      = (initialAppState, 0)
    ∧ handleFaceRecognized initialAppState "Alice" 100000 true
      = (initialAppState, 0) := by
  exact ⟨rfl, rfl⟩

/-- Claim C1 (amended).  `handleFaceRecognized` accepts exactly when
`now - (lastLoggedTimestamps[name] || 0) ≥ ATTENDANCE_COOLDOWN_MS`: an
absent entry is treated as `lastAccepted = 0` (not `-infinity`), so a
first attempt is accepted exactly when `now ≥ cooldownWindow`.  On
accept it prepends the new record and updates the entry for `name` to
`now`, leaving all other entries unchanged, and attempts exactly one
save; on rejection it leaves the cooldown state and the ledger
unchanged and attempts no save. -/
theorem cooldown_gate_amended (s : AppState) (name : String) (now : ℤ)
    (saveOk : Bool) :
    (now - lookupLogged s.lastLoggedTimestamps name
        < ATTENDANCE_COOLDOWN_MS →
      handleFaceRecognized s name now saveOk = (s, 0))
    ∧ (ATTENDANCE_COOLDOWN_MS
          ≤ now - lookupLogged s.lastLoggedTimestamps name →
        (handleFaceRecognized s name now saveOk).1.attendanceLog
            = ⟨mkRecordId name now, name, now⟩ :: s.attendanceLog
          ∧ lookupLogged
              (handleFaceRecognized s name now saveOk).1.lastLoggedTimestamps
              name = now
          ∧ (∀ k, k ≠ name →
              lookupLogged
                (handleFaceRecognized s name now saveOk).1.lastLoggedTimestamps
                k = lookupLogged s.lastLoggedTimestamps k)
          ∧ (handleFaceRecognized s name now saveOk).2 = 1)
    ∧ (lookupTs s.lastLoggedTimestamps name = none →
        ((handleFaceRecognized s name now saveOk).2 = 1
          ↔ ATTENDANCE_COOLDOWN_MS ≤ now)) := by
  refine ⟨fun hrej => ?_, fun hacc => ?_, fun habs => ?_⟩
  · simp only [handleFaceRecognized, if_pos hrej]
  · have hcond :
        ¬ now - lookupLogged s.lastLoggedTimestamps name
            < ATTENDANCE_COOLDOWN_MS := not_lt.mpr hacc
    refine ⟨?_, ?_, fun k hk => ?_, ?_⟩
    · simp only [handleFaceRecognized, if_neg hcond]
    · simp only [handleFaceRecognized, if_neg hcond]
      exact lookupLogged_setLogged_same _ _ _
    · simp only [handleFaceRecognized, if_neg hcond]
      exact lookupLogged_setLogged_other _ _ _ _ hk
    · simp only [handleFaceRecognized, if_neg hcond, saveAttempts]
  · have h0 : lookupLogged s.lastLoggedTimestamps name = 0 := by
      simp [lookupLogged, habs]
    constructor
    · intro h1
      by_contra hlt
      push_neg at hlt
      have : now - lookupLogged s.lastLoggedTimestamps name
          < ATTENDANCE_COOLDOWN_MS := by omega
      simp only [handleFaceRecognized, if_pos this] at h1
      omega
    · intro hle
      have : ¬ now - lookupLogged s.lastLoggedTimestamps name
          < ATTENDANCE_COOLDOWN_MS := by omega
      simp only [handleFaceRecognized, if_neg this]
      rfl

/-- Claim C1 (witness).  The amended scenario, shifted so the first accept
happens at `t₀ = 1000000 ≥ cooldownWindow`: the first sighting of
"Alice" at `t₀` is accepted (one save attempt); the attempt at
`t₀ + 100000` is rejected with the state and ledger unchanged; the
attempt at `t₀ + 300001` is accepted. -/
theorem cooldown_gate_witness :
    (handleFaceRecognized initialAppState "Alice" 1000000 true).2 = 1
    ∧ handleFaceRecognized
        (handleFaceRecognized initialAppState "Alice" 1000000 true).1
        "Alice" 1100000 true
      = ((handleFaceRecognized initialAppState "Alice" 1000000 true).1, 0)
    ∧ (handleFaceRecognized
        (handleFaceRecognized initialAppState "Alice" 1000000 true).1
        "Alice" 1300001 true).2 = 1 := by
  refine ⟨?_, ?_, ?_⟩
  · exact ((cooldown_gate_amended initialAppState "Alice" 1000000
      true).2.2 (by decide)).mpr (by decide)
  · exact (cooldown_gate_amended
      (handleFaceRecognized initialAppState "Alice" 1000000 true).1
      "Alice" 1100000 true).1 (by decide)
  · exact ((cooldown_gate_amended
      (handleFaceRecognized initialAppState "Alice" 1000000 true).1
      "Alice" 1300001 true).2.1 (by decide)).2.2.2

/-- Claim C2 (counterexample).  The claim says classification returns the
nearest registered identity's name whenever the minimal distance is
strictly below the threshold, and `"Unknown"` only when the registry is
empty or the minimal distance is at or above the threshold.  An identity
registered under the literal name `"unknown"` breaks this: the guard in
`detectFaces` (`bestMatch.label !== 'unknown'`) collides with face-api's
sentinel, so the query at distance 0 from that entry — nonempty
registry, minimal distance `0 < threshold` — still yields `"Unknown"`
and no recognition. -/
theorem matcher_classification_counterexample :
    sqDist [(0 : ℚ)] [(0 : ℚ)] < FACE_MATCH_THRESHOLD ^ 2
    ∧ classifyLabel [("unknown", [(0 : ℚ)])] [(0 : ℚ)] = "Unknown"
    ∧ recognizedName [("unknown", [(0 : ℚ)])] [(0 : ℚ)] = none := by
  refine ⟨by norm_num [sqDist, FACE_MATCH_THRESHOLD], ?_, ?_⟩ <;>
    norm_num [classifyLabel, recognizedName, findBestMatch, bestEntry,
      sqDist, FACE_MATCH_THRESHOLD]

/-- Claim C2 (amended).  With an empty registry classification returns
`"Unknown"`.  With a nonempty registry, let `(n, d)` be the stable
argmin of the (squared) distances to the registry (`bestEntry`): `d` is
the true minimal squared distance, attained by an entry named `n`;
if `d` is strictly below the squared threshold and `n` is not the
literal string `"unknown"`, classification returns `n`; if `d` is at or
above the threshold, or `n` is the sentinel-colliding name
`"unknown"`, classification returns `"Unknown"`. -/
theorem matcher_classification_amended (reg : List (String × List ℚ))
    (q : List ℚ) :
    (reg = [] → classifyLabel reg q = "Unknown")
    ∧ (∀ n d, bestEntry reg q = some (n, d) →
        (∃ e, (n, e) ∈ reg ∧ sqDist e q = d)
        ∧ (∀ p ∈ reg, d ≤ sqDist p.2 q)
        ∧ (d < FACE_MATCH_THRESHOLD ^ 2 → n ≠ "unknown" →
            classifyLabel reg q = n)
        ∧ (FACE_MATCH_THRESHOLD ^ 2 ≤ d →
            classifyLabel reg q = "Unknown")
        ∧ (n = "unknown" → classifyLabel reg q = "Unknown")) := by
  constructor
  · intro h
    subst h
    rfl
  · intro n d h
    refine ⟨bestEntry_mem reg q n d h, bestEntry_min reg q n d h,
      ?_, ?_, ?_⟩
    · intro hd hn
      have hne : reg ≠ [] := by
        intro hc
        rw [(bestEntry_eq_none_iff reg q).mpr hc] at h
        exact Option.noConfusion h
      obtain ⟨p, rest, rfl⟩ := List.exists_cons_of_ne_nil hne
      simp only [classifyLabel, recognizedName, findBestMatch, h,
        if_pos hd]
      rw [if_pos ⟨hn, hd⟩]
      rfl
    · intro hd
      have hd2 : ¬ d < FACE_MATCH_THRESHOLD ^ 2 := not_lt.mpr hd
      cases reg with
      | nil => rfl
      | cons p rest =>
          simp only [classifyLabel, recognizedName, findBestMatch, h,
            if_neg hd2]
          rw [if_neg (by simp)]
          rfl
    · intro hn
      subst hn
      cases reg with
      | nil => rfl
      | cons p rest =>
          simp only [classifyLabel, recognizedName, findBestMatch, h]
          by_cases hd : d < FACE_MATCH_THRESHOLD ^ 2
          · rw [if_pos hd, if_neg (by simp)]
            rfl
          · rw [if_neg hd, if_neg (by simp)]
            rfl

/-- Claim C2 (witness).  A concrete registry `["Alice" ↦ [0], "Bob" ↦ [1]]`
and query `[0]`: the argmin is `("Alice", 0)` with `0` below the squared
threshold, so classification returns `"Alice"`. -/
theorem matcher_classification_witness :
    classifyLabel [("Alice", [(0 : ℚ)]), ("Bob", [(1 : ℚ)])] [(0 : ℚ)]
      = "Alice" := by
  exact (((matcher_classification_amended
      [("Alice", [(0 : ℚ)]), ("Bob", [(1 : ℚ)])] [(0 : ℚ)]).2
    "Alice" 0 (by norm_num [bestEntry, sqDist])).2.2.1
      (by norm_num [FACE_MATCH_THRESHOLD]) (by decide))

/-- Claim C3.  The file-backed POST handler is an unsynchronized
read-full-state / mutate / write-full-state cycle (`readRecords` …
`records.unshift` … `writeRecords`) with an `await` between the read and
the write, so two concurrent appends can interleave there.  In the
schedule read₁, read₂, write₁, write₂ starting from an empty store, both
handlers complete (each would respond 201 with its record), yet the
store afterwards holds a single record — the second write overwrote the
first — instead of the two records with two distinct ids that the claim
requires.  The same two appends run back-to-back (read₁, write₁, read₂,
write₂) keep both records, confirming the loss comes purely from the
interleaving. -/
theorem concurrentAppend_lost_update :
    ((runSched (mkServerRecord "Alice" 1000 1000)
        (mkServerRecord "Bob" 1001 1001)
        [false, true, false, true] concStart).h1.finished = true
      ∧ (runSched (mkServerRecord "Alice" 1000 1000)
          (mkServerRecord "Bob" 1001 1001)
          [false, true, false, true] concStart).h2.finished = true
      ∧ (runSched (mkServerRecord "Alice" 1000 1000)
          (mkServerRecord "Bob" 1001 1001)
          [false, true, false, true] concStart).file.length = 1)
    ∧ (runSched (mkServerRecord "Alice" 1000 1000)
        (mkServerRecord "Bob" 1001 1001)
        [false, false, true, true] concStart).file.length = 2 := by
  exact ⟨⟨rfl, rfl, rfl⟩, rfl⟩

/-- Claim C4 (counterexample).  Ids are generated as the bare template
`` `${name}-${now}` `` with no counter, so two accepted records for the
same name in the same millisecond get identical ids: two POSTs for "Bob"
at millisecond 5 leave the ledger with 2 records whose id list
["Bob-5", "Bob-5"] is not duplicate-free, contradicting the claimed
collision-freedom within one millisecond. -/
theorem recordId_collision_counterexample :
    (appendAll [("Bob", 5, 5), ("Bob", 5, 5)]).length = 2
    ∧ ¬ ((appendAll [("Bob", 5, 5), ("Bob", 5, 5)]).map
        (fun r => r.id)).Nodup := by
  exact ⟨rfl, by decide⟩

/-- Claim C4 (amended).  The generated ids combine only the name and the
millisecond timestamp, so for a fixed name two generated ids coincide
exactly when the generation milliseconds coincide: ids are unique across
accepts at distinct milliseconds, and collide for two accepts of the
same name within one millisecond. -/
theorem recordId_unique_iff_amended (name : String) (t1 t2 : ℤ) :
    mkRecordId name t1 = mkRecordId name t2 ↔ t1 = t2 := by
  constructor
  · intro h
    unfold mkRecordId at h
    have hd := congrArg String.data h
    simp only [String.data_append] at hd
    have : (intToStr t1).data = (intToStr t2).data :=
      List.append_cancel_left hd
    exact intToStr_injective (String.ext this)
  · intro h; rw [h]

/-- Claim C5 (counterexample).  The file-backed `GET /api/attendance`
returns the stored array exactly as written, and POST `unshift`s each
new record to the front, so the order is reverse arrival order — not
timestamp order.  Appending a record with timestamp 100 and then one
with timestamp 50 yields the list [ts 50, ts 100], which is not sorted
by timestamp descending even though the claim requires it for every
order of arrival. -/
theorem fileGet_sorted_counterexample :
    (fileGet (appendAll [("A", 100, 1), ("B", 50, 2)])).map
        (fun r => r.timestamp) = [50, 100]
    ∧ ¬ sortedByTsDesc (fileGet (appendAll [("A", 100, 1), ("B", 50, 2)])) := by
  constructor
  · rfl
  · intro h
    have := List.rel_of_pairwise_cons h (List.mem_singleton.mpr rfl)
    simp only [mkServerRecord] at this
    omega

/-- Claim C5 (amended).  The file-backed `GET` returns the stored records
in reverse arrival order (most recently appended first).  This coincides
with sorted-by-timestamp-descending exactly when the appends arrived
with nondecreasing timestamps; in particular it is *not* timestamp
order for arbitrary arrival orders. -/
theorem fileGet_order_amended (reqs : List (String × ℤ × ℤ)) :
    fileGet (appendAll reqs)
      = (reqs.map fun r => mkServerRecord r.1 r.2.1 r.2.2).reverse
    ∧ ((reqs.map fun r => r.2.1).Pairwise (· ≤ ·) →
        sortedByTsDesc (fileGet (appendAll reqs))) := by
  refine ⟨appendAll_eq_reverse_map reqs, fun hmono => ?_⟩
  rw [fileGet, appendAll_eq_reverse_map reqs]
  rw [sortedByTsDesc, List.pairwise_reverse]
  rw [List.pairwise_map]
  rw [List.pairwise_map] at hmono
  exact hmono

/-- Claim C5 (witness).  Two appends arriving with nondecreasing
timestamps 10 then 20: the returned list is sorted most-recent-first. -/
theorem fileGet_order_witness :
    sortedByTsDesc (fileGet (appendAll [("A", 10, 1), ("B", 20, 2)])) := by
  exact (fileGet_order_amended [("A", 10, 1), ("B", 20, 2)]).2
    (by simp)

/-- Claim C6 (counterexample).  The claim says POST fails 400 exactly on a
malformed body and 500 exactly on a storage-write failure.  In the
file-backed handler the single `catch` answers **400** to a
`writeRecords` failure (never 500), and a body with both fields missing
does not throw at all — the handler stores the defaulted record and
answers **201**, not 400.  The Mongo handler likewise answers 400, not
500, when `record.save()` fails on storage. -/
theorem postStatus_counterexample :
    (filePostHandler [] ⟨some "Alice", some 5⟩ true false 5).status = 400
    ∧ (filePostHandler [] ⟨none, none⟩ true true 5).status = 201
    ∧ mongoPostStatus ⟨some "Alice", some 5⟩ false = 400 := by
  exact ⟨rfl, rfl, rfl⟩

/-- Claim C6 (amended).  The file-backed POST answers 201 with the created
record (server-assigned id `` `${name}-${Date.now()}` ``, prepended to
the store) exactly when both storage steps succeed — regardless of the
body, since missing fields never throw inside the handler — and answers
400 on any storage failure; it never answers 500.  The Mongo variant
answers 201 exactly when both required fields are present and the save
succeeds, and otherwise 400 — also never 500, even for storage
failures. -/
theorem postStatus_amended (file : List ServerRecord) (body : PostBody)
    (readOk writeOk saveOk : Bool) (now : ℤ) :
    ((filePostHandler file body readOk writeOk now).status = 201
      ↔ readOk = true ∧ writeOk = true)
    ∧ ((filePostHandler file body readOk writeOk now).status = 201
        ∨ (filePostHandler file body readOk writeOk now).status = 400)
    ∧ (filePostHandler file body readOk writeOk now).status ≠ 500
    ∧ ((filePostHandler file body readOk writeOk now).status = 201 →
        (filePostHandler file body readOk writeOk now).created
            = some (mkServerRecord (body.name.getD "undefined")
                (body.timestamp.getD 0) now)
          ∧ (filePostHandler file body readOk writeOk now).file
            = mkServerRecord (body.name.getD "undefined")
                (body.timestamp.getD 0) now :: file)
    ∧ (mongoPostStatus body saveOk = 201
      ↔ body.name.isSome ∧ body.timestamp.isSome ∧ saveOk = true)
    ∧ mongoPostStatus body saveOk ≠ 500 := by
  cases readOk <;> cases writeOk <;> cases saveOk <;>
    cases hn : body.name <;> cases ht : body.timestamp <;>
    simp [filePostHandler, mongoPostStatus, hn, ht]

/-- Claim C6 (witness).  A well-formed body with both storage steps
succeeding: status 201 and the created record, with the
server-assigned id "Alice-5", is prepended to the store. -/
theorem postStatus_witness :
    (filePostHandler [] ⟨some "Alice", some 5⟩ true true 5).created
      = some ⟨"Alice-5", "Alice", 5⟩
    ∧ (filePostHandler [] ⟨some "Alice", some 5⟩ true true 5).file
      = [⟨"Alice-5", "Alice", 5⟩] := by
  have h := (postStatus_amended [] ⟨some "Alice", some 5⟩ true true true
    5).2.2.2.1 (by decide)
  exact ⟨by rw [h.1]; rfl, by rw [h.2]; rfl⟩

/-- Claim C7 (counterexample).  The detection loop is
`window.setInterval(detectFaces, 300)` with the `async` `detectFaces`
itself as the callback; nothing in `detectFaces`' early returns consults
whether a previous invocation is still awaiting its detection work.  So
when a run outlasts the 300 ms interval the next tick is *not* skipped:
from a ready video with no run in flight, two consecutive ticks with no
completion in between leave **two** detection runs in flight — the
claim requires the second tick to be dropped, leaving one. -/
theorem detectionLoop_overlap_counterexample :
    (runLoop ⟨0, readyVideo⟩ [LoopEvent.tick, LoopEvent.tick]).inFlight
      = 2 := by
  rfl

/-- Claim C7 (amended).  A tick is skipped only when the video/canvas/model
guard of `detectFaces`' early returns fails; whenever the guard passes,
the tick starts exactly one new detection run regardless of how many
previous runs are still unfinished, so runs overlap whenever one
outlasts the interval (no tick is ever dropped because of in-flight
work, and each tick starts at most one run — work is not queued beyond
that). -/
theorem detectionLoop_amended (s : LoopState) :
    (detectFacesGuard s.video = true →
        loopStep s LoopEvent.tick = { s with inFlight := s.inFlight + 1 })
    ∧ (detectFacesGuard s.video = false →
        loopStep s LoopEvent.tick = s) := by
  constructor
  · intro h
    simp [loopStep, h]
  · intro h
    simp [loopStep, h]

/-- Claim C7 (witness).  With five runs already in flight and a ready
video, a tick starts a sixth run rather than being skipped. -/
theorem detectionLoop_witness :
    loopStep ⟨5, readyVideo⟩ LoopEvent.tick = ⟨6, readyVideo⟩ := by
  exact (detectionLoop_amended ⟨5, readyVideo⟩).1 (by decide)

/-- Claim C8.  When the ledger write fails after an accept
(`saveAttendanceRecord`'s `fetch` rejects), the `catch` inside
`saveAttendanceRecord` swallows the error: exactly one save attempt is
made and not retried, the whole result — including the already-updated
cooldown entry `lastLoggedTimestamps[name] = now` — is identical to the
successful-save result (so the failure neither crashes nor stops
processing), and a subsequent attempt for the same name within the
cooldown window is suppressed with no state change even though the
first write failed. -/
theorem persistFailure_gate_updated (s : AppState) (name : String)
    (now now2 : ℤ) (saveOk2 : Bool)
    (hacc : ATTENDANCE_COOLDOWN_MS
      ≤ now - lookupLogged s.lastLoggedTimestamps name)
    (hwin : now2 - now < ATTENDANCE_COOLDOWN_MS) :
    (handleFaceRecognized s name now false).2 = 1
    ∧ handleFaceRecognized s name now false
      = handleFaceRecognized s name now true
    ∧ lookupLogged
        (handleFaceRecognized s name now false).1.lastLoggedTimestamps
        name = now
    ∧ handleFaceRecognized (handleFaceRecognized s name now false).1
        name now2 saveOk2
      = ((handleFaceRecognized s name now false).1, 0) := by
  have hcond :
      ¬ now - lookupLogged s.lastLoggedTimestamps name
          < ATTENDANCE_COOLDOWN_MS := not_lt.mpr hacc
  have hupd : lookupLogged
      (handleFaceRecognized s name now false).1.lastLoggedTimestamps name
      = now := by
    simp only [handleFaceRecognized, if_neg hcond]
    exact lookupLogged_setLogged_same _ _ _
  refine ⟨?_, ?_, hupd, ?_⟩
  · simp only [handleFaceRecognized, if_neg hcond, saveAttempts]
  · simp only [handleFaceRecognized, if_neg hcond, saveAttempts]
  · have hrej : now2 - lookupLogged
        (handleFaceRecognized s name now false).1.lastLoggedTimestamps
        name < ATTENDANCE_COOLDOWN_MS := by rw [hupd]; exact hwin
    generalize (handleFaceRecognized s name now false).1 = s1 at hrej ⊢
    simp only [handleFaceRecognized, if_pos hrej]

/-- Claim C8 (witness).  Concrete run: "Alice" accepted at `t = 1000000`
with a failing save; one attempt is made, the gate is updated, and the
retry at `t = 1100000` is suppressed. -/
theorem persistFailure_gate_updated_witness :
    (handleFaceRecognized initialAppState "Alice" 1000000 false).2 = 1
    ∧ handleFaceRecognized
        (handleFaceRecognized initialAppState "Alice" 1000000 false).1
        "Alice" 1100000 true
      = ((handleFaceRecognized initialAppState "Alice" 1000000 false).1,
          0) := by
  have h := persistFailure_gate_updated initialAppState "Alice"
    1000000 1100000 true (by decide) (by decide)
  exact ⟨h.1, h.2.2.2⟩

/-- Claim C9.  A detection that does not resolve to a registered identity
within the threshold — every registry entry is at (squared) distance at
or above the (squared) threshold from the query, which also covers the
empty registry — is labelled "Unknown", and processing it performs
nothing: `onFaceRecognized` is never called, so the cooldown map is
neither consulted nor written, no ledger record is created, and no save
is attempted (`processDetection` returns the state unchanged with zero
save attempts). -/
theorem unknown_detection_no_effect (reg : List (String × List ℚ))
    (s : AppState) (q : List ℚ) (now : ℤ) (saveOk : Bool)
    (h : ∀ p ∈ reg, FACE_MATCH_THRESHOLD ^ 2 ≤ sqDist p.2 q) :
    classifyLabel reg q = "Unknown"
    ∧ processDetection reg s q now saveOk = (s, 0) := by
  have hrec : recognizedName reg q = none := by
    cases hreg : reg with
    | nil => rfl
    | cons p rest =>
        cases hbest : bestEntry (p :: rest) q with
        | none =>
            exact absurd ((bestEntry_eq_none_iff _ q).mp hbest) (by simp)
        | some b =>
            obtain ⟨n, d⟩ := b
            obtain ⟨e, hmem, hd⟩ := bestEntry_mem _ q n d hbest
            have hth : FACE_MATCH_THRESHOLD ^ 2 ≤ d := by
              rw [← hd]
              exact h (n, e) (hreg ▸ hmem)
            simp only [recognizedName, findBestMatch, hbest,
              if_neg (not_lt.mpr hth)]
            rw [if_neg (by simp)]
  refine ⟨?_, ?_⟩
  · rw [classifyLabel, hrec]
    rfl
  · rw [processDetection, hrec]

/-- Claim C9 (witness).  Registry `["Alice" ↦ [0]]`, query `[1]`: the only
entry is at squared distance `1 ≥ 1/4`, so the label is "Unknown" and
the App state is untouched. -/
theorem unknown_detection_no_effect_witness :
    classifyLabel [("Alice", [(0 : ℚ)])] [(1 : ℚ)] = "Unknown"
    ∧ processDetection [("Alice", [(0 : ℚ)])] initialAppState [(1 : ℚ)]
        1000000 true = (initialAppState, 0) := by
  exact unknown_detection_no_effect [("Alice", [(0 : ℚ)])]
    initialAppState [(1 : ℚ)] 1000000 true
    (by intro p hp
        simp only [List.mem_singleton] at hp
        subst hp
        norm_num [sqDist, FACE_MATCH_THRESHOLD])

/-- Claim C10.  The client's fetch mapping assigns the in-memory record's
`id` from the server field `_id` (`id: record._id`).  The file-backed
server stores its generated identifier under the field `id` and its
JSON has no `_id` member, so every record created by the file-backed
POST — and every stored record served by the file-backed GET — arrives
on the client with an undefined (`none`) id, even though the wire
record does carry the generated id under `id`. -/
theorem fileBacked_client_id_undefined (file : List ServerRecord)
    (name : String) (ts now : ℤ) :
    (fileWire (filePost file name ts now).2).id
      = some (mkRecordId name now)
    ∧ (fileWire (filePost file name ts now).2).mongoId = none
    ∧ (clientOfWire (fileWire (filePost file name ts now).2)).id = none
    ∧ (∀ r ∈ fileGet file, (clientOfWire (fileWire r)).id = none) := by
  exact ⟨rfl, rfl, rfl, fun r _ => rfl⟩

/-- Claim C10 (witness).  The record stored by a concrete POST comes back
to the client with `id = none` although the wire record carries
`id = "Alice-5"`. -/
theorem fileBacked_client_id_undefined_witness :
    (fileWire (filePost [] "Alice" 5 5).2).id = some "Alice-5"
    ∧ (clientOfWire (fileWire (filePost [] "Alice" 5 5).2)).id
      = none := by
  have h := fileBacked_client_id_undefined [] "Alice" 5 5
  exact ⟨by rw [h.1]; rfl, h.2.2.1⟩

end Attendance
